import Mathlib

/-!
Verification of the claims about `parallelplot/plot.py`.

The source is a single function `parallel_plot` (plus its worker helper
`_parallel_plot_worker`).  We embed it shallowly:

* matplotlib figures, axes and image files are abstracted: an artifact is
  identified by its task index (the worker writes the file
  ".figcache/{index}.temp.png" and the assembler reads it back, so the index
  determines the artifact).
* `plot_fn` / `preprocessing_fn` are opaque caller callbacks; the only thing
  the claims depend on is whether the worker task for index `i` raises or
  succeeds, which we abstract as `workerOk : Nat -> Bool`.
* the results of `pool.imap_unordered` arrive in an arbitrary completion
  order; we make that order an explicit parameter `order : List Nat`
  (a permutation of `range total` for a real run).
* the filesystem state relevant to the claims is whether the cache directory
  `.figcache` exists and which artifact files it holds; we also count how
  often a worker task ran its callbacks (`calls`), which the spec's
  observability arguments are phrased in terms of.
* Python's `int(index / n)` on nonnegative ints is floor division, modelled
  by `Nat` division.
* machine integers do not overflow here (`Nat` is faithful).

`os.cpu_count()` is the parameter `cpuCount`.  `multiprocessing.Pool(n)`
raises `ValueError` when `n < 1`, modelled by `PlotError.poolCreationError`.
`total=None` defaulting to `len(data)` is modelled by passing `total`
directly.  `show_progress` only wraps the iterator in `tqdm` and is
observational, so it is omitted.
-/

/-- State of the world outside the function: the cache directory
`.figcache` (does it exist, which artifact indices have files in it) and
the number of worker-task callback executions that have happened. -/
structure SysState where
  cacheExists : Bool
  cacheFiles : List Nat
  calls : Nat
deriving DecidableEq

/-- Errors the source can actually raise on the modelled paths:
`Pool(min(total, os.cpu_count()))` with an argument below 1 raises
`ValueError`; a raising `preprocessing_fn`/`plot_fn` propagates out of
`imap_unordered` when that task's result is consumed; `axes[r, c]` with an
out-of-range coordinate raises `IndexError` during assembly. -/
inductive PlotError where
  | poolCreationError
  | workerError (index : Nat)
  | placementError (index : Nat)
deriving DecidableEq

/-- Embedding of lines 98-103 of plot.py:
if switch_axis: `c = int(index / n_rows); r = index % n_rows`
else: `c = index % n_cols; r = int(index / n_cols)`.
Returned as the pair (r, c) used in `axes[r, c]`. -/
def gridCoord (switch_axis : Bool) (n_rows n_cols index : Nat) : Nat × Nat :=
  if switch_axis then
    (index % n_rows, index / n_rows)
  else
    (index / n_cols, index % n_cols)

/-- Embedding of `Pool(min(total, os.cpu_count()))`: the worker pool size. -/
def poolSize (total cpuCount : Nat) : Nat :=
  min total cpuCount

/-- The consumption loop `for index, path in iterator`: each consumed result
corresponds to a worker task that ran (callback invoked, `calls + 1`).  If
the task raised, the exception surfaces here (`workerError`).  Otherwise the
worker saved its figure (`cacheFiles` gains `index`) and the assembler does
`axes[r, c].imshow(img)`, which raises `IndexError` when (r, c) is outside
the `n_rows x n_cols` axes array (`placementError`).  Successfully placed
indices are accumulated in consumption order. -/
def runLoop (switch_axis : Bool) (n_rows n_cols : Nat) (workerOk : Nat → Bool) :
    List Nat → SysState → List Nat → Except (PlotError × SysState) (SysState × List Nat)
  | [], s, placed => .ok (s, placed)
  | i :: rest, s, placed =>
    if workerOk i then
      let s' : SysState :=
        { s with cacheFiles := i :: s.cacheFiles, calls := s.calls + 1 }
      let rc := gridCoord switch_axis n_rows n_cols i
      if rc.1 < n_rows && rc.2 < n_cols then
        runLoop switch_axis n_rows n_cols workerOk rest s' (placed ++ [i])
      else
        .error (.placementError i, s')
    else
      .error (.workerError i, { s with calls := s.calls + 1 })

/-- The assignment of artifacts to grid cells produced by executing
`axes[r, c].imshow(img)` for each placed index in consumption order
(a later draw on the same cell would cover an earlier one). -/
def placeGrid (switch_axis : Bool) (n_rows n_cols : Nat) (placed : List Nat) :
    Nat × Nat → Option Nat :=
  placed.foldl
    (fun g i => fun rc => if rc = gridCoord switch_axis n_rows n_cols i then some i else g rc)
    (fun _ => none)

/-- The caller-visible configuration of `parallel_plot` (the arguments that
the modelled behaviour depends on). -/
structure PlotConfig where
  n_rows : Nat
  n_cols : Nat
  total : Nat
  col_labels : Option (List String)
  row_labels : Option (List String)
  grid_cell_size : Nat × Nat
  switch_axis : Bool
  cleanup : Bool
deriving DecidableEq

/-- The composite figure as far as the claims observe it: applied column and
row titles, the parent figure size, and which artifact ended up in which
grid cell. -/
structure GridResult where
  colTitles : List String
  rowTitles : List String
  figsize : Nat × Nat
  grid : Nat × Nat → Option Nat

/-- Embedding of `parallel_plot`.  Follows the source line by line:
1. `if not os.path.exists(CACHE_DIR): os.mkdir(CACHE_DIR)` - create the
   cache directory only when absent, silently reusing an existing one;
2. read `grid_shape`, compute `full_figsize`, build the parent figure;
3. `zip(col_labels, axes[0])` / `zip(row_labels, axes[:, 0])` - zip
   truncates to the shorter sequence, so the applied titles are
   `labels.take n_cols` / `labels.take n_rows`; no length validation;
4. `with Pool(min(total, os.cpu_count())) as pool` - raises when the pool
   size is below 1;
5. consume `imap_unordered` results in completion order (`runLoop`);
6. `if cleanup: shutil.rmtree(CACHE_DIR)` - executed only when the loop
   finished without an exception (there is no try/finally), removing the
   directory and all files in it. -/
def parallel_plot (cfg : PlotConfig) (workerOk : Nat → Bool) (cpuCount : Nat)
    (order : List Nat) (s0 : SysState) :
    Except (PlotError × SysState) (SysState × GridResult) :=
  let s1 : SysState := { s0 with cacheExists := true }
  let colTitles := (cfg.col_labels.getD []).take cfg.n_cols
  let rowTitles := (cfg.row_labels.getD []).take cfg.n_rows
  let full_figsize := (cfg.n_cols * cfg.grid_cell_size.1, cfg.n_rows * cfg.grid_cell_size.2)
  if poolSize cfg.total cpuCount < 1 then
    .error (.poolCreationError, s1)
  else
    match runLoop cfg.switch_axis cfg.n_rows cfg.n_cols workerOk order s1 [] with
    | .error e => .error e
    | .ok (s2, placed) =>
      let s3 : SysState :=
        if cfg.cleanup then { s2 with cacheExists := false, cacheFiles := [] } else s2
      .ok (s3, { colTitles := colTitles, rowTitles := rowTitles,
                 figsize := full_figsize,
                 grid := placeGrid cfg.switch_axis cfg.n_rows cfg.n_cols placed })

/-- Projection used to compare two runs by the composite figure they
return, ignoring the filesystem state. -/
def resultGrid (r : Except (PlotError × SysState) (SysState × GridResult)) :
    Option GridResult :=
  match r with
  | .ok p => some p.2
  | .error _ => none

/-- C1: for every index below rows*cols, RowMajor (switch_axis = false)
gives col = index mod cols and row = index div cols, and ColumnMajor
(switch_axis = true) gives col = index div rows and row = index mod rows. -/
theorem gridCoord_formulas (rows cols index : Nat) (h : index < rows * cols) :
    gridCoord false rows cols index = (index / cols, index % cols) ∧
    gridCoord true rows cols index = (index % rows, index / rows) :=
  ⟨rfl, rfl⟩

theorem gridCoord_formulas_witness :
    (5 : Nat) < 2 * 3 ∧
    (gridCoord false 2 3 5 = (5 / 3, 5 % 3) ∧
     gridCoord true 2 3 5 = (5 % 2, 5 / 2)) :=
  ⟨by decide, gridCoord_formulas 2 3 5 (by decide)⟩

/-- Helper: the index to coordinate map is injective outright (div/mod
decomposition), for either traversal order. -/
theorem gridCoord_inj (sw : Bool) (rows cols i j : Nat)
    (h : gridCoord sw rows cols i = gridCoord sw rows cols j) : i = j := by
  cases sw <;> simp only [gridCoord, if_true, if_false, Prod.mk.injEq, Bool.false_eq_true,
    ite_true, ite_false] at h
  · have hi := Nat.div_add_mod i cols
    have hj := Nat.div_add_mod j cols
    rw [h.1, h.2] at hi
    exact hi.symm.trans hj
  · have hi := Nat.div_add_mod i rows
    have hj := Nat.div_add_mod j rows
    rw [h.2, h.1] at hi
    exact hi.symm.trans hj

/-- Helper: an index below rows*cols lands inside the axes array. -/
theorem gridCoord_inRange (sw : Bool) (rows cols i : Nat) (h : i < rows * cols) :
    (gridCoord sw rows cols i).1 < rows ∧ (gridCoord sw rows cols i).2 < cols := by
  have hr : 0 < rows := by
    rcases Nat.eq_zero_or_pos rows with h0 | h0
    · subst h0; simp at h
    · exact h0
  have hc : 0 < cols := by
    rcases Nat.eq_zero_or_pos cols with h0 | h0
    · subst h0; simp at h
    · exact h0
  cases sw
  · constructor
    · exact (Nat.div_lt_iff_lt_mul hc).mpr h
    · exact Nat.mod_lt _ hc
  · constructor
    · exact Nat.mod_lt _ hr
    · exact (Nat.div_lt_iff_lt_mul hr).mpr (by rwa [Nat.mul_comm] at h)

/-- C2: for positive rows and cols and either traversal order, the index to
(row, col) map restricted to indices below rows*cols is a bijection onto
the rows x cols coordinate rectangle: it maps into the rectangle, is
injective there, and every coordinate pair is hit. -/
theorem gridCoord_bijection (sw : Bool) (rows cols : Nat)
    (hr : 0 < rows) (hc : 0 < cols) :
    (∀ i, i < rows * cols →
      (gridCoord sw rows cols i).1 < rows ∧ (gridCoord sw rows cols i).2 < cols) ∧
    (∀ i j, i < rows * cols → j < rows * cols →
      gridCoord sw rows cols i = gridCoord sw rows cols j → i = j) ∧
    (∀ r c, r < rows → c < cols →
      ∃ i, i < rows * cols ∧ gridCoord sw rows cols i = (r, c)) := by
  refine ⟨fun i hi => gridCoord_inRange sw rows cols i hi,
    fun i j _ _ hij => gridCoord_inj sw rows cols i j hij, ?_⟩
  intro r c hrr hcc
  cases sw
  · refine ⟨cols * r + c, ?_, ?_⟩
    · calc cols * r + c < cols * r + cols := by omega
        _ = cols * (r + 1) := by ring
        _ ≤ cols * rows := Nat.mul_le_mul_left cols hrr
        _ = rows * cols := Nat.mul_comm cols rows
    · simp only [gridCoord, Bool.false_eq_true, ite_false, Prod.mk.injEq]
      constructor
      · rw [Nat.mul_add_div hc, Nat.div_eq_of_lt hcc]
        omega
      · rw [Nat.mul_add_mod, Nat.mod_eq_of_lt hcc]
  · refine ⟨rows * c + r, ?_, ?_⟩
    · calc rows * c + r < rows * c + rows := by omega
        _ = rows * (c + 1) := by ring
        _ ≤ rows * cols := Nat.mul_le_mul_left rows hcc
    · simp only [gridCoord, ite_true, Prod.mk.injEq]
      constructor
      · rw [Nat.mul_add_mod, Nat.mod_eq_of_lt hrr]
      · rw [Nat.mul_add_div hr, Nat.div_eq_of_lt hrr]
        omega

theorem gridCoord_bijection_witness :
    ((0 : Nat) < 2 ∧ (0 : Nat) < 3) ∧
    ((∀ i, i < 2 * 3 →
      (gridCoord true 2 3 i).1 < 2 ∧ (gridCoord true 2 3 i).2 < 3) ∧
    (∀ i j, i < 2 * 3 → j < 2 * 3 →
      gridCoord true 2 3 i = gridCoord true 2 3 j → i = j) ∧
    (∀ r c, r < 2 → c < 3 →
      ∃ i, i < 2 * 3 ∧ gridCoord true 2 3 i = (r, c))) :=
  ⟨⟨by decide, by decide⟩, gridCoord_bijection true 2 3 (by decide) (by decide)⟩

/-- C6: for total at least 1, the pool is created with exactly
min(total, cpuCount) processes, which never exceeds total and never exceeds
the available parallelism. -/
theorem poolSize_spec (total cpuCount : Nat) (h : 1 ≤ total) :
    poolSize total cpuCount = min total cpuCount ∧
    poolSize total cpuCount ≤ total ∧
    poolSize total cpuCount ≤ cpuCount :=
  ⟨rfl, Nat.min_le_left _ _, Nat.min_le_right _ _⟩

theorem poolSize_spec_witness :
    (1 : Nat) ≤ 2 ∧
    (poolSize 2 4 = min 2 4 ∧ poolSize 2 4 ≤ 2 ∧ poolSize 2 4 ≤ 4) :=
  ⟨by decide, poolSize_spec 2 4 (by decide)⟩

/-- C10: with total = 0 the pool is requested with min(0, cpuCount) = 0
processes, which fails; the call raises for every empty input instead of
returning an empty composite figure. -/
theorem parallel_plot_total_zero (cfg : PlotConfig) (workerOk : Nat → Bool)
    (cpuCount : Nat) (order : List Nat) (s0 : SysState) (h : cfg.total = 0) :
    parallel_plot cfg workerOk cpuCount order s0 =
      .error (.poolCreationError, { s0 with cacheExists := true }) := by
  simp [parallel_plot, poolSize, h]

theorem parallel_plot_total_zero_witness :
    (PlotConfig.mk 2 3 0 none none (6, 12) false true).total = 0 ∧
    parallel_plot ⟨2, 3, 0, none, none, (6, 12), false, true⟩ (fun _ => true) 4 []
        ⟨false, [], 0⟩ =
      .error (.poolCreationError, ⟨true, [], 0⟩) :=
  ⟨rfl, parallel_plot_total_zero ⟨2, 3, 0, none, none, (6, 12), false, true⟩
    (fun _ => true) 4 [] ⟨false, [], 0⟩ rfl⟩

/-- C7 counterexample: with a cache directory already present (holding a
stale artifact file 99 from some earlier, foreign run), the call does not
fail with any resource error: it silently reuses the directory and
completes, with the stale file still inside when cleanup is off. -/
theorem parallel_plot_stale_cache_ok :
    (SysState.mk true [99] 0).cacheExists = true ∧
    parallel_plot ⟨1, 1, 1, none, none, (6, 12), false, false⟩ (fun _ => true) 1 [0]
        ⟨true, [99], 0⟩ =
      .ok (⟨true, [0, 99], 1⟩,
        { colTitles := [], rowTitles := [], figsize := (6, 12),
          grid := placeGrid false 1 1 [0] }) :=
  ⟨rfl, rfl⟩

/-- C7 amended: opening the cache never fails: the directory is created
only when absent, and a pre-existing directory is silently reused - the run
is identical whether or not the directory already existed. -/
theorem parallel_plot_cache_open_silent (cfg : PlotConfig) (workerOk : Nat → Bool)
    (cpuCount : Nat) (order : List Nat) (s0 : SysState) :
    parallel_plot cfg workerOk cpuCount order s0 =
      parallel_plot cfg workerOk cpuCount order { s0 with cacheExists := true } :=
  rfl

/-- Helper: when the consumption loop raises, the erroring state still has
whatever cache-directory existence the loop started with (the loop never
touches the directory itself), and at least one more worker task has run. -/
theorem runLoop_error_state (sw : Bool) (nr nc : Nat) (w : Nat → Bool) :
    ∀ (order : List Nat) (s : SysState) (placed : List Nat) (e : PlotError) (s' : SysState),
    runLoop sw nr nc w order s placed = .error (e, s') →
    s'.cacheExists = s.cacheExists ∧ s.calls + 1 ≤ s'.calls := by
  intro order
  induction order with
  | nil =>
    intro s placed e s' h
    simp [runLoop] at h
  | cons i rest ih =>
    intro s placed e s' h
    simp only [runLoop] at h
    split at h
    · split at h
      · have hrec := ih _ _ _ _ h
        exact ⟨hrec.1, Nat.le_of_succ_le hrec.2⟩
      · simp only [Except.error.injEq, Prod.mk.injEq] at h
        rw [← h.2]
        exact ⟨rfl, Nat.le_refl _⟩
    · simp only [Except.error.injEq, Prod.mk.injEq] at h
      rw [← h.2]
      exact ⟨rfl, Nat.le_refl _⟩

/-- Helper: when the consumption loop finishes normally, the cache directory
existence is unchanged, every consumed index has its artifact file in the
cache, and no file the loop started with has been removed. -/
theorem runLoop_ok_state (sw : Bool) (nr nc : Nat) (w : Nat → Bool) :
    ∀ (order : List Nat) (s : SysState) (placed : List Nat) (s2 : SysState) (p2 : List Nat),
    runLoop sw nr nc w order s placed = .ok (s2, p2) →
    s2.cacheExists = s.cacheExists ∧
    (∀ i ∈ order, i ∈ s2.cacheFiles) ∧
    (∀ x ∈ s.cacheFiles, x ∈ s2.cacheFiles) := by
  intro order
  induction order with
  | nil =>
    intro s placed s2 p2 h
    simp only [runLoop, Except.ok.injEq, Prod.mk.injEq] at h
    rw [← h.1]
    exact ⟨rfl, by simp, fun x hx => hx⟩
  | cons i rest ih =>
    intro s placed s2 p2 h
    simp only [runLoop] at h
    split at h
    · split at h
      · have hrec := ih _ _ _ _ h
        refine ⟨hrec.1, ?_, ?_⟩
        · intro j hj
          rcases List.mem_cons.mp hj with hj | hj
          · subst hj
            exact hrec.2.2 j (by simp)
          · exact hrec.2.1 j hj
        · intro x hx
          exact hrec.2.2 x (by simp [hx])
      · exact absurd h (by simp)
    · exact absurd h (by simp)

/-- C5 counterexample: a failing worker task (here the single task, index 0)
makes the call raise, and the cache directory is NOT removed even though
cleanup = true asked for its removal: line 107's rmtree is only reached on
normal completion, there is no try/finally. -/
theorem parallel_plot_worker_fail_leak :
    (PlotConfig.mk 1 1 1 none none (6, 12) false true).cleanup = true ∧
    parallel_plot ⟨1, 1, 1, none, none, (6, 12), false, true⟩ (fun _ => false) 1 [0]
        ⟨false, [], 0⟩ =
      .error (.workerError 0, ⟨true, [], 1⟩) ∧
    (SysState.mk true [] 1).cacheExists = true :=
  ⟨rfl, rfl, rfl⟩

/-- C5 amended: whenever the call raises (worker failure, placement failure
or pool-creation failure), the cache directory is never removed, regardless
of the cleanup preference: the rmtree at the end is only executed on normal
completion, so the error path always leaks the cache directory. -/
theorem parallel_plot_error_cache_leak (cfg : PlotConfig) (workerOk : Nat → Bool)
    (cpuCount : Nat) (order : List Nat) (s0 : SysState) (e : PlotError) (s : SysState)
    (h : parallel_plot cfg workerOk cpuCount order s0 = .error (e, s)) :
    s.cacheExists = true := by
  simp only [parallel_plot] at h
  split at h
  · simp only [Except.error.injEq, Prod.mk.injEq] at h
    rw [← h.2]
  · split at h
    · rename_i e0 heq
      simp only [Except.error.injEq] at h
      have hstate := runLoop_error_state cfg.switch_axis cfg.n_rows cfg.n_cols workerOk
        order { s0 with cacheExists := true } [] e0.1 e0.2 (by rw [heq])
      have hs : s = e0.2 := by rw [h]
      rw [hs]
      exact hstate.1
    · exact absurd h (by simp)

theorem parallel_plot_error_cache_leak_witness :
    (SysState.mk true [] 1).cacheExists = true :=
  parallel_plot_error_cache_leak ⟨1, 1, 1, none, none, (6, 12), false, true⟩
    (fun _ => false) 1 [0] ⟨false, [], 0⟩ (.workerError 0) ⟨true, [], 1⟩ rfl

/-- C8: on normal completion, cleanup = true removes the cache directory and
everything in it (the directory no longer exists and holds no files), while
cleanup = false leaves the directory and every written artifact intact. -/
theorem parallel_plot_cleanup (cfg : PlotConfig) (workerOk : Nat → Bool)
    (cpuCount : Nat) (order : List Nat) (s0 : SysState) (s : SysState) (g : GridResult)
    (h : parallel_plot cfg workerOk cpuCount order s0 = .ok (s, g)) :
    (cfg.cleanup = true → s.cacheExists = false ∧ s.cacheFiles = []) ∧
    (cfg.cleanup = false → s.cacheExists = true ∧ ∀ i ∈ order, i ∈ s.cacheFiles) := by
  simp only [parallel_plot] at h
  split at h
  · exact absurd h (by simp)
  · split at h
    · exact absurd h (by simp)
    · rename_i s2 p heq
      simp only [Except.ok.injEq, Prod.mk.injEq] at h
      have hstate := runLoop_ok_state cfg.switch_axis cfg.n_rows cfg.n_cols workerOk
        order { s0 with cacheExists := true } [] s2 p heq
      obtain ⟨hs, _⟩ := h
      constructor
      · intro hc
        rw [← hs, if_pos hc]
        exact ⟨rfl, rfl⟩
      · intro hc
        rw [← hs, if_neg (by simp [hc])]
        exact ⟨hstate.1, hstate.2.1⟩

theorem parallel_plot_cleanup_witness :
    ((PlotConfig.mk 1 1 1 none none (6, 12) false true).cleanup = true →
      (SysState.mk false [] 1).cacheExists = false ∧
      (SysState.mk false [] 1).cacheFiles = []) ∧
    ((PlotConfig.mk 1 1 1 none none (6, 12) false true).cleanup = false →
      (SysState.mk false [] 1).cacheExists = true ∧
      ∀ i ∈ [0], i ∈ (SysState.mk false [] 1).cacheFiles) :=
  parallel_plot_cleanup ⟨1, 1, 1, none, none, (6, 12), false, true⟩ (fun _ => true) 1 [0]
    ⟨false, [], 0⟩ ⟨false, [], 1⟩
    { colTitles := [], rowTitles := [], figsize := (6, 12),
      grid := placeGrid false 1 1 [0] } rfl

/-- C9 counterexample: a column-label list of length 1 with cols = 3 (a
length mismatch) raises nothing: the call completes normally, the workers
all ran (3 callback executions), and the single label was applied to the
first column by the truncating zip at line 72. -/
theorem parallel_plot_label_mismatch_ok :
    (["a"] : List String).length ≠ 3 ∧
    parallel_plot ⟨1, 3, 3, some ["a"], none, (6, 12), false, true⟩ (fun _ => true) 4
        [0, 1, 2] ⟨false, [], 0⟩ =
      .ok (⟨false, [], 3⟩,
        { colTitles := ["a"], rowTitles := [], figsize := (18, 12),
          grid := placeGrid false 1 3 [0, 1, 2] }) ∧
    (SysState.mk false [] 3).calls ≠ 0 :=
  ⟨by decide, rfl, by decide⟩

/-- C9 amended: providing label sequences of any length (matching or not)
never raises: the run is the run without labels, except that the composite
figure carries the first min(length, cols) column labels and the first
min(length, rows) row labels, as produced by the truncating zips at lines
71-77. -/
theorem parallel_plot_labels (cfg : PlotConfig) (workerOk : Nat → Bool)
    (cpuCount : Nat) (order : List Nat) (s0 : SysState) (ls rs : List String) :
    parallel_plot { cfg with col_labels := some ls, row_labels := some rs }
        workerOk cpuCount order s0 =
      (parallel_plot { cfg with col_labels := none, row_labels := none }
          workerOk cpuCount order s0).map
        (fun p => (p.1, { p.2 with colTitles := ls.take cfg.n_cols,
                                   rowTitles := rs.take cfg.n_rows })) := by
  obtain ⟨nr, nc, tot, cl, rl, gcs, sw, cu⟩ := cfg
  simp only [parallel_plot]
  by_cases hp : poolSize tot cpuCount < 1
  · simp [hp, Except.map]
  · simp only [if_neg hp]
    rcases hrun : runLoop sw nr nc workerOk order { s0 with cacheExists := true } [] with
      e | p
    · simp [Except.map]
    · simp [Except.map]

/-- Helper: an index lands inside the axes array exactly when it is below
rows*cols, for either traversal order. -/
theorem gridCoord_inRange_iff (sw : Bool) (rows cols i : Nat) :
    ((gridCoord sw rows cols i).1 < rows ∧ (gridCoord sw rows cols i).2 < cols) ↔
      i < rows * cols := by
  constructor
  · intro h
    cases sw
    · have hc : 0 < cols := by
        rcases Nat.eq_zero_or_pos cols with h0 | h0
        · rw [h0] at h
          simp [gridCoord, Nat.mod_zero] at h
        · exact h0
      have := h.1
      simp only [gridCoord, Bool.false_eq_true, ite_false] at this
      exact (Nat.div_lt_iff_lt_mul hc).mp this
    · have hr : 0 < rows := by
        rcases Nat.eq_zero_or_pos rows with h0 | h0
        · rw [h0] at h
          simp [gridCoord, Nat.mod_zero] at h
        · exact h0
      have := h.2
      simp only [gridCoord, ite_true] at this
      rw [Nat.mul_comm]
      exact (Nat.div_lt_iff_lt_mul hr).mp this
  · exact gridCoord_inRange sw rows cols i

/-- Helper: when every worker succeeds but some consumed index falls outside
the rows x cols axes array, the consumption loop raises IndexError at the
first such index it consumes, after having run at least one callback. -/
theorem runLoop_bad_index (sw : Bool) (nr nc : Nat) (w : Nat → Bool) :
    ∀ (order : List Nat) (s : SysState) (placed : List Nat),
    (∀ i ∈ order, w i = true) →
    (∃ i ∈ order, nr * nc ≤ i) →
    ∃ i s', runLoop sw nr nc w order s placed = .error (.placementError i, s') ∧
      nr * nc ≤ i ∧ 1 ≤ s'.calls := by
  intro order
  induction order with
  | nil =>
    intro s placed _ hbad
    simp at hbad
  | cons j rest ih =>
    intro s placed hw hbad
    have hwj : w j = true := hw j (by simp)
    by_cases hj : j < nr * nc
    · have hin := (gridCoord_inRange_iff sw nr nc j).mpr hj
      obtain ⟨b, hbmem, hble⟩ := hbad
      have hbrest : b ∈ rest := by
        rcases List.mem_cons.mp hbmem with hb | hb
        · subst hb
          omega
        · exact hb
      obtain ⟨i, s', hrun, hile, hcalls⟩ :=
        ih ({ s with cacheFiles := j :: s.cacheFiles, calls := s.calls + 1 }) (placed ++ [j])
          (fun k hk => hw k (by simp [hk])) ⟨b, hbrest, hble⟩
      refine ⟨i, s', ?_, hile, hcalls⟩
      simp only [runLoop, hwj, if_true]
      rw [if_pos ?_]
      · exact hrun
      · simp only [Bool.and_eq_true, decide_eq_true_eq]
        exact hin
    · refine ⟨j, { s with cacheFiles := j :: s.cacheFiles, calls := s.calls + 1 }, ?_, by omega,
        Nat.le_add_left 1 s.calls⟩
      simp only [runLoop, hwj, if_true]
      rw [if_neg ?_]
      simp only [Bool.and_eq_true, decide_eq_true_eq]
      intro hcontra
      exact hj ((gridCoord_inRange_iff sw nr nc j).mp hcontra)

/-- C4 counterexample: with rows = cols = 1 and total = 2 (total exceeds
rows*cols), the call is not rejected up front: both worker tasks run their
rendering callback (calls = 2, not 0) and both artifact files are written;
the failure is an IndexError while placing index 1 during assembly, not a
configuration error raised before the workers. -/
theorem parallel_plot_overfull_counterexample :
    1 * 1 < 2 ∧
    parallel_plot ⟨1, 1, 2, none, none, (6, 12), false, true⟩ (fun _ => true) 1 [0, 1]
        ⟨false, [], 0⟩ =
      .error (.placementError 1, ⟨true, [1, 0], 2⟩) ∧
    (SysState.mk true [1, 0] 2).calls ≠ 0 :=
  ⟨by decide, rfl, by decide⟩

/-- C4 amended: when total exceeds rows*cols, no validation happens before
the workers are created: for any completion order of the total tasks (all
workers succeeding), the rendering callback runs for at least one task and
the call fails with an IndexError while assembling the first consumed
result whose index is at least rows*cols. -/
theorem parallel_plot_overfull (cfg : PlotConfig) (workerOk : Nat → Bool)
    (cpuCount : Nat) (order : List Nat) (s0 : SysState)
    (horder : order.Perm (List.range cfg.total))
    (hover : cfg.n_rows * cfg.n_cols < cfg.total)
    (hw : ∀ i, i < cfg.total → workerOk i = true)
    (hcpu : 1 ≤ cpuCount) :
    ∃ i s, parallel_plot cfg workerOk cpuCount order s0 =
        .error (.placementError i, s) ∧
      cfg.n_rows * cfg.n_cols ≤ i ∧ 1 ≤ s.calls := by
  have hmem : cfg.n_rows * cfg.n_cols ∈ order :=
    horder.mem_iff.mpr (List.mem_range.mpr hover)
  have hworder : ∀ i ∈ order, workerOk i = true := by
    intro i hi
    exact hw i (List.mem_range.mp (horder.mem_iff.mp hi))
  obtain ⟨i, s', hrun, hile, hcalls⟩ :=
    runLoop_bad_index cfg.switch_axis cfg.n_rows cfg.n_cols workerOk order
      { s0 with cacheExists := true } [] hworder
      ⟨cfg.n_rows * cfg.n_cols, hmem, Nat.le_refl _⟩
  refine ⟨i, s', ?_, hile, hcalls⟩
  have hpool : ¬ poolSize cfg.total cpuCount < 1 := by
    simp only [poolSize, Nat.lt_one_iff, Nat.min_eq_zero_iff]
    omega
  simp only [parallel_plot, if_neg hpool, hrun]

theorem parallel_plot_overfull_witness :
    ∃ i s, parallel_plot ⟨1, 1, 2, none, none, (6, 12), false, true⟩ (fun _ => true) 4
        [1, 0] ⟨false, [], 0⟩ =
        .error (.placementError i, s) ∧
      1 * 1 ≤ i ∧ 1 ≤ s.calls :=
  parallel_plot_overfull ⟨1, 1, 2, none, none, (6, 12), false, true⟩ (fun _ => true) 4
    [1, 0] ⟨false, [], 0⟩ (by decide) (by decide) (fun i _ => rfl) (by decide)

/-- Helper: a cell that no index in the list maps to keeps whatever the
accumulated drawing had there. -/
theorem placeFold_not_mem (sw : Bool) (nr nc : Nat) :
    ∀ (l : List Nat) (g : Nat × Nat → Option Nat) (rc : Nat × Nat),
    (∀ i ∈ l, gridCoord sw nr nc i ≠ rc) →
    l.foldl (fun g i => fun p => if p = gridCoord sw nr nc i then some i else g p) g rc =
      g rc := by
  intro l
  induction l with
  | nil =>
    intro g rc _
    rfl
  | cons j rest ih =>
    intro g rc hnone
    simp only [List.foldl_cons]
    rw [ih _ rc (fun i hi => hnone i (by simp [hi]))]
    rw [if_neg ?_]
    intro hcontra
    exact hnone j (by simp) hcontra.symm

/-- Helper: with pairwise distinct indices, the cell an index maps to ends
up holding exactly that index's artifact, no matter where in the list it
sits (injectivity of the coordinate map means nothing else writes there). -/
theorem placeFold_mem (sw : Bool) (nr nc : Nat) :
    ∀ (l : List Nat) (g : Nat × Nat → Option Nat) (rc : Nat × Nat) (i : Nat),
    l.Nodup → i ∈ l → gridCoord sw nr nc i = rc →
    l.foldl (fun g i => fun p => if p = gridCoord sw nr nc i then some i else g p) g rc =
      some i := by
  intro l
  induction l with
  | nil =>
    intro g rc i _ hmem
    simp at hmem
  | cons j rest ih =>
    intro g rc i hnd hmem hcoord
    have hndr := (List.nodup_cons.mp hnd).2
    have hjrest := (List.nodup_cons.mp hnd).1
    simp only [List.foldl_cons]
    rcases List.mem_cons.mp hmem with hij | hirest
    · subst hij
      rw [placeFold_not_mem sw nr nc rest _ rc ?_]
      · rw [if_pos hcoord.symm]
      · intro k hk hkcoord
        have : k = i := gridCoord_inj sw nr nc k i (hkcoord.trans hcoord.symm)
        subst this
        exact hjrest hk
    · exact ih _ rc i hndr hirest hcoord

/-- Helper: drawing the same set of distinct-index artifacts in two
different completion orders produces the same cell assignment. -/
theorem placeGrid_perm (sw : Bool) (nr nc : Nat) (l l' : List Nat)
    (hp : l.Perm l') (hnd : l.Nodup) :
    placeGrid sw nr nc l = placeGrid sw nr nc l' := by
  have hnd' : l'.Nodup := hp.nodup hnd
  funext rc
  simp only [placeGrid]
  by_cases hex : ∃ i ∈ l, gridCoord sw nr nc i = rc
  · obtain ⟨i, hil, hcoord⟩ := hex
    rw [placeFold_mem sw nr nc l _ rc i hnd hil hcoord,
      placeFold_mem sw nr nc l' _ rc i hnd' (hp.mem_iff.mp hil) hcoord]
  · push_neg at hex
    rw [placeFold_not_mem sw nr nc l _ rc hex,
      placeFold_not_mem sw nr nc l' _ rc (fun i hi => hex i (hp.mem_iff.mpr hi))]

/-- Helper: when every consumed index has a succeeding worker and lands
inside the axes array, the consumption loop completes and the placed list
is the full consumption order. -/
theorem runLoop_all_ok (sw : Bool) (nr nc : Nat) (w : Nat → Bool) :
    ∀ (order : List Nat) (s : SysState) (placed : List Nat),
    (∀ i ∈ order, w i = true) →
    (∀ i ∈ order, i < nr * nc) →
    ∃ s2, runLoop sw nr nc w order s placed = .ok (s2, placed ++ order) := by
  intro order
  induction order with
  | nil =>
    intro s placed _ _
    exact ⟨s, by simp [runLoop]⟩
  | cons j rest ih =>
    intro s placed hw hrange
    have hwj : w j = true := hw j (by simp)
    have hin := (gridCoord_inRange_iff sw nr nc j).mpr (hrange j (by simp))
    obtain ⟨s2, hrun⟩ :=
      ih ({ s with cacheFiles := j :: s.cacheFiles, calls := s.calls + 1 }) (placed ++ [j])
        (fun k hk => hw k (by simp [hk])) (fun k hk => hrange k (by simp [hk]))
    refine ⟨s2, ?_⟩
    simp only [runLoop, hwj, if_true]
    rw [if_pos ?_]
    · rw [hrun]
      simp
    · simp only [Bool.and_eq_true, decide_eq_true_eq]
      exact hin

/-- Helper: the composite figure a fully successful run returns, stated
through the resultGrid projection: titles from the truncating zips, the
figure size, and the cell assignment obtained by placing the consumption
order. -/
theorem parallel_plot_run_ok (cfg : PlotConfig) (workerOk : Nat → Bool)
    (cpuCount : Nat) (order : List Nat) (s0 : SysState)
    (hw : ∀ i ∈ order, workerOk i = true)
    (hrange : ∀ i ∈ order, i < cfg.n_rows * cfg.n_cols)
    (hpool : 1 ≤ poolSize cfg.total cpuCount) :
    resultGrid (parallel_plot cfg workerOk cpuCount order s0) =
      some { colTitles := (cfg.col_labels.getD []).take cfg.n_cols,
             rowTitles := (cfg.row_labels.getD []).take cfg.n_rows,
             figsize := (cfg.n_cols * cfg.grid_cell_size.1,
                         cfg.n_rows * cfg.grid_cell_size.2),
             grid := placeGrid cfg.switch_axis cfg.n_rows cfg.n_cols order } := by
  obtain ⟨s2, hrun⟩ :=
    runLoop_all_ok cfg.switch_axis cfg.n_rows cfg.n_cols workerOk order
      { s0 with cacheExists := true } [] hw hrange
  have hnpool : ¬ poolSize cfg.total cpuCount < 1 := by omega
  simp only [parallel_plot, if_neg hnpool, hrun, List.nil_append, resultGrid]

/-- C3: the final assignment of artifacts to grid cells is independent of
the order in which workers complete: two runs consuming the same task set
in any two completion orders return the same composite figure (and both
succeed), given succeeding workers and a grid large enough for the tasks. -/
theorem parallel_plot_order_independent (cfg : PlotConfig) (workerOk : Nat → Bool)
    (cpuCount : Nat) (order order' : List Nat) (s0 s0' : SysState)
    (h1 : order.Perm (List.range cfg.total))
    (h2 : order'.Perm (List.range cfg.total))
    (htot : cfg.total ≤ cfg.n_rows * cfg.n_cols)
    (hw : ∀ i, i < cfg.total → workerOk i = true)
    (hcpu : 1 ≤ cpuCount) (htotal : 1 ≤ cfg.total) :
    resultGrid (parallel_plot cfg workerOk cpuCount order s0) =
      resultGrid (parallel_plot cfg workerOk cpuCount order' s0') ∧
    (resultGrid (parallel_plot cfg workerOk cpuCount order s0)).isSome = true := by
  have hmem : ∀ i ∈ order, i < cfg.total :=
    fun i hi => List.mem_range.mp (h1.mem_iff.mp hi)
  have hmem' : ∀ i ∈ order', i < cfg.total :=
    fun i hi => List.mem_range.mp (h2.mem_iff.mp hi)
  have hpool : 1 ≤ poolSize cfg.total cpuCount := le_min htotal hcpu
  have hrew := parallel_plot_run_ok cfg workerOk cpuCount order s0
    (fun i hi => hw i (hmem i hi)) (fun i hi => Nat.lt_of_lt_of_le (hmem i hi) htot) hpool
  have hrew' := parallel_plot_run_ok cfg workerOk cpuCount order' s0'
    (fun i hi => hw i (hmem' i hi)) (fun i hi => Nat.lt_of_lt_of_le (hmem' i hi) htot) hpool
  have hnd : order.Nodup := h1.symm.nodup (List.nodup_range _)
  have hgr : placeGrid cfg.switch_axis cfg.n_rows cfg.n_cols order =
      placeGrid cfg.switch_axis cfg.n_rows cfg.n_cols order' :=
    placeGrid_perm cfg.switch_axis cfg.n_rows cfg.n_cols order order'
      (h1.trans h2.symm) hnd
  rw [hrew, hrew', hgr]
  exact ⟨rfl, rfl⟩

theorem parallel_plot_order_independent_witness :
    resultGrid (parallel_plot ⟨2, 3, 6, none, none, (6, 12), false, true⟩
        (fun _ => true) 4 [0, 1, 2, 3, 4, 5] ⟨false, [], 0⟩) =
      resultGrid (parallel_plot ⟨2, 3, 6, none, none, (6, 12), false, true⟩
        (fun _ => true) 4 [5, 4, 3, 2, 1, 0] ⟨true, [7], 9⟩) ∧
    (resultGrid (parallel_plot ⟨2, 3, 6, none, none, (6, 12), false, true⟩
        (fun _ => true) 4 [0, 1, 2, 3, 4, 5] ⟨false, [], 0⟩)).isSome = true :=
  parallel_plot_order_independent ⟨2, 3, 6, none, none, (6, 12), false, true⟩
    (fun _ => true) 4 [0, 1, 2, 3, 4, 5] [5, 4, 3, 2, 1, 0] ⟨false, [], 0⟩ ⟨true, [7], 9⟩
    (by decide) (by decide) (by decide) (fun i _ => rfl) (by decide) (by decide)
